import Mathlib

set_option autoImplicit false

/-!
Shallow embedding of the parts of libmicrohttpd exercised by the claims:
`src/daemon/response.c` (response objects, header list, reference counting)
and `src/daemon/connection_https.c` (TLS connection handlers).

C strings are modelled as Lean `String`; C `NULL`-able pointers as `Option`;
heap buffers as `Buffer` values carrying an allocation identity; the C
`unsigned int` reference count as a `Nat` with arithmetic taken modulo 2^32
where the C code may wrap.  Calls observable from outside (the termination
callback, `gnutls_bye`, `free`) are recorded in explicit trace fields so that
theorems can speak about them.
-/

/-- `MHD_YES` from microhttpd.h. -/
def MHD_YES : Int := 1

/-- `MHD_NO` from microhttpd.h. -/
def MHD_NO : Int := 0

/-- Modulus of the C `unsigned int` (32 bits). -/
def UINT32_MOD : Nat := 4294967296

/-- `enum MHD_ValueKind` from microhttpd.h (the kinds of header entries). -/
inductive MHD_ValueKind where
  | MHD_RESPONSE_HEADER_KIND
  | MHD_HEADER_KIND
  | MHD_COOKIE_KIND
  | MHD_POSTDATA_KIND
  | MHD_GET_ARGUMENT_KIND
  | MHD_FOOTER_KIND
deriving DecidableEq, Repr

/-- `struct MHD_HTTP_Header`: name, value and kind; the `next` pointer of the C
struct is modelled by placing the entries in a `List`. -/
structure MHD_HTTP_Header where
  header : String
  value : String
  kind : MHD_ValueKind
deriving DecidableEq, Repr

/-- A heap buffer: `id` is the allocation identity (the address), `bytes` its
contents.  Two buffers from distinct `malloc` calls have distinct ids. -/
structure Buffer where
  id : Nat
  bytes : List Nat
deriving DecidableEq, Repr

/-- `struct MHD_Response` (internal.h), restricted to the fields response.c
touches.  `crc` records whether a content-reader callback is present
(`crc != NULL`); `crfc_is_free` records whether the free hook is `&free`;
`crc_cls` is the buffer that hook would be applied to. -/
structure MHD_Response where
  first_header : List MHD_HTTP_Header
  reference_count : Nat
  total_size : Nat
  data : Option Buffer
  data_size : Nat
  crc : Bool
  crfc_is_free : Bool
  crc_cls : Option Buffer
deriving DecidableEq, Repr

/-- `strstr (s, t) != NULL` for the one-character needles used by
`MHD_add_response_header`: the string contains a TAB, CR or LF. -/
def forbiddenChars (s : String) : Bool :=
  s.data.any (fun ch => ch = '\t' || ch = '\r' || ch = '\n')

/-- `MHD_add_response_header` (response.c:39-64).  Returns the updated
response (NULL pointers stay `none`) together with the C return value. -/
def MHD_add_response_header (response : Option MHD_Response)
    (header content : Option String) : Option MHD_Response × Int :=
  match response, header, content with
  | some r, some h, some c =>
      if h.length = 0 || c.length = 0 || forbiddenChars h || forbiddenChars c then
        (some r, MHD_NO)
      else
        (some { r with first_header :=
            { header := h, value := c, kind := .MHD_HEADER_KIND } :: r.first_header },
         MHD_YES)
  | _, _, _ => (response, MHD_NO)

/-- The `while` loop of `MHD_del_response_header` (response.c:81-97): walk the
list, unlink the first entry whose name and value both compare equal with
`strcmp`; `none` when no entry matches. -/
def delLoop (header content : String) :
    List MHD_HTTP_Header → Option (List MHD_HTTP_Header)
  | [] => none
  | pos :: rest =>
      if header = pos.header ∧ content = pos.value then some rest
      else
        match delLoop header content rest with
        | some rest2 => some (pos :: rest2)
        | none => none

/-- `MHD_del_response_header` (response.c:71-99). -/
def MHD_del_response_header (response : MHD_Response)
    (header content : Option String) : MHD_Response × Int :=
  match header, content with
  | some h, some c =>
      match delLoop h c response.first_header with
      | some l => ({ response with first_header := l }, MHD_YES)
      | none => (response, MHD_NO)
  | _, _ => (response, MHD_NO)

/-- The `while` loop of `MHD_get_response_headers` (response.c:116-125).  The
C iterator mutates through its `void * cls`; we model it as state passing:
`σ → kind → name → value → σ × Int`.  `numHeaders` is incremented before the
iterator is consulted, so the entry on which the iterator stops is counted. -/
def getHeadersLoop {σ : Type}
    (iterator : Option (σ → MHD_ValueKind → String → String → σ × Int)) :
    List MHD_HTTP_Header → σ → Nat → σ × Nat
  | [], cls, numHeaders => (cls, numHeaders)
  | pos :: rest, cls, numHeaders =>
      match iterator with
      | none => getHeadersLoop none rest cls (numHeaders + 1)
      | some it =>
          let r := it cls pos.kind pos.header pos.value
          if r.2 ≠ MHD_YES then (r.1, numHeaders + 1)
          else getHeadersLoop (some it) rest r.1 (numHeaders + 1)

/-- `MHD_get_response_headers` (response.c:109-127): returns the final
iterator state together with `numHeaders`. -/
def MHD_get_response_headers {σ : Type} (response : MHD_Response)
    (iterator : Option (σ → MHD_ValueKind → String → String → σ × Int))
    (iterator_cls : σ) : σ × Nat :=
  getHeadersLoop iterator response.first_header iterator_cls 0

/-- `MHD_create_response_from_data` (response.c:177-213).  `freshId` is the
identity of the buffer a copying `malloc` would return; shallow embedding
assumes allocation and `pthread_mutex_init` succeed (their failure paths are
environment failures, not program logic). -/
def MHD_create_response_from_data (size : Nat) (data : Option Buffer)
    (must_free must_copy : Bool) (freshId : Nat) : Option MHD_Response :=
  if data = none ∧ 0 < size then none
  else
    let copied := must_copy && decide (0 < size)
    let data2 : Option Buffer :=
      if copied then some ⟨freshId, ((data.map Buffer.bytes).getD []).take size⟩
      else data
    let must_free2 := if copied then true else must_free
    some
      { first_header := []
        reference_count := 1
        total_size := size
        data := data2
        data_size := size
        crc := false
        crfc_is_free := must_free2
        crc_cls := if must_free2 then data2 else none }

/-- Outcome of `MHD_destroy_response`: the surviving response (`none` when the
object was freed), the header entries freed, whether `free (response)` ran,
and whether the content-reader free hook `response->crfc` was invoked. -/
structure DestroyResult where
  response : Option MHD_Response
  freed_headers : List MHD_HTTP_Header
  freed_response : Bool
  crfc_called : Bool
deriving DecidableEq, Repr

/-- `MHD_destroy_response` (response.c:221-242).  `--reference_count` on the
C `unsigned int` is the decrement modulo 2^32.  Note that the source frees
the header entries and the response struct but contains no call to
`response->crfc`, so `crfc_called` is `false` on every path. -/
def MHD_destroy_response (response : Option MHD_Response) : DestroyResult :=
  match response with
  | none => ⟨none, [], false, false⟩
  | some r =>
      let rc := (r.reference_count + (UINT32_MOD - 1)) % UINT32_MOD
      if rc ≠ 0 then
        ⟨some { r with reference_count := rc }, [], false, false⟩
      else
        ⟨none, r.first_header, true, false⟩

/-- `MHD_increment_response_rc` (response.c:245-250). -/
def MHD_increment_response_rc (response : MHD_Response) : MHD_Response :=
  { response with reference_count := (response.reference_count + 1) % UINT32_MOD }

/-- The connection states of §4.4 plus the TLS pre-state
(`enum MHD_CONNECTION_STATE`, internal.h). -/
inductive MHD_CONNECTION_STATE where
  | MHD_CONNECTION_INIT
  | MHD_CONNECTION_URL_RECEIVED
  | MHD_CONNECTION_HEADER_PART_RECEIVED
  | MHD_CONNECTION_HEADERS_RECEIVED
  | MHD_CONNECTION_HEADERS_PROCESSED
  | MHD_CONNECTION_CONTINUE_SENDING
  | MHD_CONNECTION_CONTINUE_SENT
  | MHD_CONNECTION_BODY_RECEIVED
  | MHD_CONNECTION_FOOTER_PART_RECEIVED
  | MHD_CONNECTION_FOOTERS_RECEIVED
  | MHD_CONNECTION_HEADERS_SENDING
  | MHD_CONNECTION_HEADERS_SENT
  | MHD_CONNECTION_NORMAL_BODY_READY
  | MHD_CONNECTION_NORMAL_BODY_UNREADY
  | MHD_CONNECTION_BODY_SENT
  | MHD_CONNECTION_FOOTERS_SENT
  | MHD_CONNECTION_CLOSED
  | MHD_TLS_CONNECTION_INIT
deriving DecidableEq, Repr

/-- `enum MHD_RequestTerminationCode` (microhttpd.h). -/
inductive MHD_RequestTerminationCode where
  | MHD_REQUEST_TERMINATED_COMPLETED_OK
  | MHD_REQUEST_TERMINATED_WITH_ERROR
  | MHD_REQUEST_TERMINATED_TIMEOUT_REACHED
  | MHD_REQUEST_TERMINATED_DAEMON_SHUTDOWN
  | MHD_REQUEST_TERMINATED_CLIENT_ABORT
deriving DecidableEq, Repr

/-- gnutls return codes used by connection_https.c (gnutls.h). -/
def GNUTLS_E_SUCCESS : Int := 0

/-- `GNUTLS_E_AGAIN` (gnutls.h). -/
def GNUTLS_E_AGAIN : Int := -28

/-- `GNUTLS_E_INTERRUPTED` (gnutls.h). -/
def GNUTLS_E_INTERRUPTED : Int := -52

/-- `struct MHD_Connection`, restricted to the fields connection_https.c
touches.  `socket_fd = -1` is the "closed" sentinel; `connection_timeout`
models `connection->daemon->connection_timeout` (C `unsigned int`);
`tls_bye_count` counts `gnutls_bye` calls and `term_calls` records the
termination-callback invocations, in order. -/
structure MHD_Connection where
  state : MHD_CONNECTION_STATE
  socket_fd : Int
  last_activity : Int
  connection_timeout : Nat
  tls_bye_count : Nat
  term_calls : List MHD_RequestTerminationCode
deriving DecidableEq, Repr

/-- Modelled from the spec: `MHD_connection_close` (connection.c) is code of
this repository that is not under src/; only its TLS caller is.  Per §4.4,
"CLOSED handling: invokes the termination callback exactly once, classifying
termination ...; frees the pool; closes the socket".  We record one
termination-callback invocation, replace the socket handle by the sentinel
`-1` and move the state to CLOSED. -/
def MHD_connection_close (connection : MHD_Connection)
    (termination_code : MHD_RequestTerminationCode) : MHD_Connection :=
  { connection with
      state := .MHD_CONNECTION_CLOSED
      socket_fd := -1
      term_calls := connection.term_calls ++ [termination_code] }

/-- `MHD_tls_connection_close` (connection_https.c:46-52): `gnutls_bye` then
`MHD_connection_close`. -/
def MHD_tls_connection_close (connection : MHD_Connection)
    (termination_code : MHD_RequestTerminationCode) : MHD_Connection :=
  MHD_connection_close
    { connection with tls_bye_count := connection.tls_bye_count + 1 }
    termination_code

/-- Modelled from the spec: `MHD_connection_handle_read` (connection.c) is not
under src/.  The claims exercise it only on connections in the CLOSED state,
which per §4.4 is terminal: the single termination-callback invocation is the
close routine's job, reached from the idle step, so the read path performs no
close there and reports the connection dead.  The HTTP state-machine advance
on the other states is outside the cited claims and modelled as a stutter. -/
def MHD_connection_handle_read (connection : MHD_Connection) :
    MHD_Connection × Int :=
  if connection.state = .MHD_CONNECTION_CLOSED then (connection, MHD_NO)
  else (connection, MHD_YES)

/-- Modelled from the spec: `MHD_connection_handle_write` (connection.c) is
not under src/; same modelling as `MHD_connection_handle_read`. -/
def MHD_connection_handle_write (connection : MHD_Connection) :
    MHD_Connection × Int :=
  if connection.state = .MHD_CONNECTION_CLOSED then (connection, MHD_NO)
  else (connection, MHD_YES)

/-- Modelled from the spec: `MHD_connection_handle_idle` (connection.c) is not
under src/ and is only reached by the TLS idle handler for states other than
`MHD_TLS_CONNECTION_INIT` and `MHD_CONNECTION_CLOSED`.  Per §4.4/§4.6 it
advances the HTTP machine; the timeout force-close is the TLS idle handler's
own check, already embedded below, and no branch of the plain idle handler
records a timeout termination.  Modelled as a stutter. -/
def MHD_connection_handle_idle (connection : MHD_Connection) :
    MHD_Connection × Int :=
  (connection, MHD_YES)

/-- `MHD_tls_connection_handle_idle` (connection_https.c:64-96).  `now` is the
value of `time (NULL)`.  The timeout check precedes the state switch; note
that it requires `timeout != 0` and an open socket. -/
def MHD_tls_connection_handle_idle (now : Int) (connection : MHD_Connection) :
    MHD_Connection × Int :=
  let timeout := connection.connection_timeout
  if connection.socket_fd ≠ -1 ∧ timeout ≠ 0 ∧
      now - (timeout : Int) > connection.last_activity then
    (MHD_tls_connection_close connection .MHD_REQUEST_TERMINATED_TIMEOUT_REACHED,
     MHD_NO)
  else
    match connection.state with
    | .MHD_TLS_CONNECTION_INIT => (connection, MHD_YES)
    | .MHD_CONNECTION_CLOSED =>
        if connection.socket_fd ≠ -1 then
          (MHD_tls_connection_close connection
             .MHD_REQUEST_TERMINATED_COMPLETED_OK, MHD_NO)
        else (connection, MHD_NO)
    | _ => MHD_connection_handle_idle connection

/-- `MHD_tls_connection_handle_read` (connection_https.c:116-147).  `now` is
`time (NULL)`; `handshake_result` is what `gnutls_handshake` returns (the TLS
library is an external collaborator, so its result is an input). -/
def MHD_tls_connection_handle_read (now handshake_result : Int)
    (connection : MHD_Connection) : MHD_Connection × Int :=
  let connection := { connection with last_activity := now }
  if connection.state = .MHD_TLS_CONNECTION_INIT then
    if handshake_result = GNUTLS_E_SUCCESS then
      ({ connection with state := .MHD_CONNECTION_INIT }, MHD_YES)
    else if handshake_result = GNUTLS_E_AGAIN ∨
        handshake_result = GNUTLS_E_INTERRUPTED then
      (connection, MHD_YES)
    else
      (MHD_tls_connection_close connection .MHD_REQUEST_TERMINATED_WITH_ERROR,
       MHD_NO)
  else MHD_connection_handle_read connection

/-- `MHD_tls_connection_handle_write` (connection_https.c:159-194); same
handshake logic as the read handler. -/
def MHD_tls_connection_handle_write (now handshake_result : Int)
    (connection : MHD_Connection) : MHD_Connection × Int :=
  let connection := { connection with last_activity := now }
  if connection.state = .MHD_TLS_CONNECTION_INIT then
    if handshake_result = GNUTLS_E_SUCCESS then
      ({ connection with state := .MHD_CONNECTION_INIT }, MHD_YES)
    else if handshake_result = GNUTLS_E_AGAIN ∨
        handshake_result = GNUTLS_E_INTERRUPTED then
      (connection, MHD_YES)
    else
      (MHD_tls_connection_close connection .MHD_REQUEST_TERMINATED_WITH_ERROR,
       MHD_NO)
  else MHD_connection_handle_write connection

/-- One invocation of a TLS connection handler, with its environment inputs
(`time (NULL)` and, for read/write, the `gnutls_handshake` result). -/
inductive TlsEvent where
  | read (now handshake_result : Int)
  | write (now handshake_result : Int)
  | idle (now : Int)
deriving DecidableEq, Repr

/-- Effect of one handler invocation on the connection. -/
def tlsStep (connection : MHD_Connection) : TlsEvent → MHD_Connection
  | .read now hs => (MHD_tls_connection_handle_read now hs connection).1
  | .write now hs => (MHD_tls_connection_handle_write now hs connection).1
  | .idle now => (MHD_tls_connection_handle_idle now connection).1

/-- Effect of a sequence of handler invocations. -/
def tlsRun (connection : MHD_Connection) : List TlsEvent → MHD_Connection
  | [] => connection
  | ev :: evs => tlsRun (tlsStep connection ev) evs

/-! ### Helper lemmas and sample values -/

/-- `forbiddenChars` holds exactly when the string contains a TAB, CR or LF. -/
theorem forbiddenChars_eq_true_iff (s : String) :
    forbiddenChars s = true ↔ ∃ ch ∈ s.data, ch = '\t' ∨ ch = '\r' ∨ ch = '\n' := by
  simp [forbiddenChars, List.any_eq_true, or_assoc]

/-- A response with no headers, reference count 1 and no body, as
`MHD_create_response_from_data (0, NULL, 0, 0)` builds it. -/
def emptyResponse : MHD_Response :=
  { first_header := [], reference_count := 1, total_size := 0,
    data := none, data_size := 0, crc := false,
    crfc_is_free := false, crc_cls := none }

theorem create_empty_eq : MHD_create_response_from_data 0 none false false 0 =
    some emptyResponse := by decide

/-! ### C8 -/

/-- C8: `MHD_add_response_header` returns MHD_NO and leaves the header list
unchanged whenever the response, name or content is NULL, either string is
empty, or either string contains a TAB, CR or LF; otherwise it returns
MHD_YES and prepends exactly one entry of kind `MHD_HEADER_KIND`. -/
theorem C8_add_response_header_validation
    (response : Option MHD_Response) (header content : Option String) :
    ((response = none ∨ header = none ∨ content = none ∨
      (∃ h, header = some h ∧ (h.length = 0 ∨ forbiddenChars h = true)) ∨
      (∃ c, content = some c ∧ (c.length = 0 ∨ forbiddenChars c = true))) →
      MHD_add_response_header response header content = (response, MHD_NO)) ∧
    (∀ r h c, response = some r → header = some h → content = some c →
      h.length ≠ 0 → c.length ≠ 0 →
      forbiddenChars h = false → forbiddenChars c = false →
      MHD_add_response_header response header content =
        (some { r with first_header :=
            { header := h, value := c, kind := MHD_ValueKind.MHD_HEADER_KIND } ::
              r.first_header },
         MHD_YES)) := by
  constructor
  · rintro (rfl | rfl | rfl | ⟨h, rfl, hbad⟩ | ⟨c, rfl, hbad⟩)
    · cases header <;> cases content <;> rfl
    · cases response <;> cases content <;> rfl
    · cases response <;> cases header <;> rfl
    · cases response with
      | none => cases content <;> rfl
      | some r =>
        cases content with
        | none => rfl
        | some c =>
          simp only [MHD_add_response_header]
          rcases hbad with h0 | hf
          · rw [if_pos]
            simp [h0]
          · rw [if_pos]
            simp [hf]
    · cases response with
      | none => cases header <;> rfl
      | some r =>
        cases header with
        | none => rfl
        | some h =>
          simp only [MHD_add_response_header]
          rcases hbad with h0 | hf
          · rw [if_pos]
            simp [h0]
          · rw [if_pos]
            simp [hf]
  · rintro r h c rfl rfl rfl h1 h2 h3 h4
    simp [MHD_add_response_header, h1, h2, h3, h4]

/-- Witness for C8 at concrete inputs: a name containing TAB is rejected with
the response unchanged, and a clean pair is appended with MHD_YES. -/
theorem C8_add_response_header_validation_witness :
    MHD_add_response_header (some emptyResponse) (some "X\t") (some "v") =
      (some emptyResponse, MHD_NO) ∧
    MHD_add_response_header (some emptyResponse) (some "X") (some "v") =
      (some { emptyResponse with first_header :=
        [{ header := "X", value := "v", kind := MHD_ValueKind.MHD_HEADER_KIND }] },
       MHD_YES) :=
  ⟨(C8_add_response_header_validation _ _ _).1
      (Or.inr (Or.inr (Or.inr (Or.inl ⟨"X\t", rfl, Or.inr (by decide)⟩)))),
   (C8_add_response_header_validation _ _ _).2 emptyResponse "X" "v" rfl rfl rfl
      (by decide) (by decide) (by decide) (by decide)⟩

/-! ### C6 -/

/-- When no entry matches both name and value exactly, the deletion loop
finds nothing. -/
theorem delLoop_eq_none (h c : String) (l : List MHD_HTTP_Header)
    (hnone : ∀ q ∈ l, ¬(q.header = h ∧ q.value = c)) :
    delLoop h c l = none := by
  induction l with
  | nil => rfl
  | cons p rest ih =>
      have hp := hnone p (by simp)
      have : ¬(h = p.header ∧ c = p.value) := by
        intro hx
        exact hp ⟨hx.1.symm, hx.2.symm⟩
      simp only [delLoop, if_neg this]
      rw [ih fun q hq => hnone q (by simp [hq])]

/-- The deletion loop unlinks exactly the first matching entry, keeping every
other entry in order. -/
theorem delLoop_first_match (h c : String) (l₁ : List MHD_HTTP_Header)
    (p : MHD_HTTP_Header) (l₂ : List MHD_HTTP_Header)
    (hbefore : ∀ q ∈ l₁, ¬(q.header = h ∧ q.value = c))
    (hp : p.header = h ∧ p.value = c) :
    delLoop h c (l₁ ++ p :: l₂) = some (l₁ ++ l₂) := by
  induction l₁ with
  | nil =>
      simp only [List.nil_append, delLoop]
      rw [if_pos ⟨hp.1.symm, hp.2.symm⟩]
  | cons q rest ih =>
      have hq := hbefore q (by simp)
      have : ¬(h = q.header ∧ c = q.value) := by
        intro hx
        exact hq ⟨hx.1.symm, hx.2.symm⟩
      simp only [List.cons_append, delLoop, if_neg this, List.append_eq]
      rw [ih fun x hx => hbefore x (by simp [hx])]

/-- C6: `MHD_del_response_header` removes exactly the first entry whose name
and value both equal the arguments byte-for-byte and returns MHD_YES, leaving
the other entries and their relative order unchanged; when no entry matches
it returns MHD_NO with the list unchanged. -/
theorem C6_del_response_header (r : MHD_Response) (h c : String) :
    (∀ l₁ p l₂, r.first_header = l₁ ++ p :: l₂ →
      (∀ q ∈ l₁, ¬(q.header = h ∧ q.value = c)) →
      p.header = h → p.value = c →
      MHD_del_response_header r (some h) (some c) =
        ({ r with first_header := l₁ ++ l₂ }, MHD_YES)) ∧
    ((∀ q ∈ r.first_header, ¬(q.header = h ∧ q.value = c)) →
      MHD_del_response_header r (some h) (some c) = (r, MHD_NO)) := by
  constructor
  · intro l₁ p l₂ hsplit hbefore hph hpv
    simp only [MHD_del_response_header, hsplit,
      delLoop_first_match h c l₁ p l₂ hbefore ⟨hph, hpv⟩]
  · intro hnone
    simp only [MHD_del_response_header, delLoop_eq_none h c _ hnone]

/-- Sample three-entry header list for the C6 witness (entries are stored in
prepend order, matching response.c). -/
def threeHdrResponse : MHD_Response :=
  { emptyResponse with first_header :=
      [{ header := "A", value := "1", kind := MHD_ValueKind.MHD_HEADER_KIND },
       { header := "B", value := "2", kind := MHD_ValueKind.MHD_HEADER_KIND },
       { header := "A", value := "1", kind := MHD_ValueKind.MHD_HEADER_KIND }] }

/-- Witness for C6: deleting ("B","2") removes exactly the middle entry; a
miss ("A","2") leaves the response unchanged with MHD_NO. -/
theorem C6_del_response_header_witness :
    MHD_del_response_header threeHdrResponse (some "B") (some "2") =
      ({ threeHdrResponse with first_header :=
          [{ header := "A", value := "1", kind := MHD_ValueKind.MHD_HEADER_KIND },
           { header := "A", value := "1", kind := MHD_ValueKind.MHD_HEADER_KIND }] },
       MHD_YES) ∧
    MHD_del_response_header threeHdrResponse (some "A") (some "2") =
      (threeHdrResponse, MHD_NO) :=
  ⟨(C6_del_response_header threeHdrResponse "B" "2").1
      [{ header := "A", value := "1", kind := MHD_ValueKind.MHD_HEADER_KIND }]
      { header := "B", value := "2", kind := MHD_ValueKind.MHD_HEADER_KIND }
      [{ header := "A", value := "1", kind := MHD_ValueKind.MHD_HEADER_KIND }]
      rfl (by decide) rfl rfl,
   (C6_del_response_header threeHdrResponse "A" "2").2 (by decide)⟩

/-! ### C10 -/

/-- With a NULL iterator the loop just counts the remaining entries. -/
theorem getHeadersLoop_none {σ : Type} (l : List MHD_HTTP_Header) (cls : σ)
    (n : Nat) : getHeadersLoop (σ := σ) none l cls n = (cls, n + l.length) := by
  induction l generalizing n with
  | nil => simp [getHeadersLoop]
  | cons p rest ih =>
      simp only [getHeadersLoop, ih, List.length_cons]
      exact congrArg _ (by omega)

/-- The running `numHeaders` accumulator only shifts the final count. -/
theorem getHeadersLoop_acc {σ : Type}
    (it : Option (σ → MHD_ValueKind → String → String → σ × Int))
    (l : List MHD_HTTP_Header) (cls : σ) (n : Nat) :
    getHeadersLoop it l cls n =
      ((getHeadersLoop it l cls 0).1, n + (getHeadersLoop it l cls 0).2) := by
  induction l generalizing cls n with
  | nil => rfl
  | cons p rest ih =>
      cases it with
      | none =>
          rw [getHeadersLoop_none, getHeadersLoop_none]
          simp
      | some f =>
          simp only [getHeadersLoop]
          by_cases hstop : (f cls p.kind p.header p.value).2 ≠ MHD_YES
          · rw [if_pos hstop, if_pos hstop]
          · rw [if_neg hstop, if_neg hstop,
              ih ((f cls p.kind p.header p.value).1) (n + 1),
              ih ((f cls p.kind p.header p.value).1) (0 + 1)]
            exact congrArg _ (by omega)

/-- The loop never counts more entries than the list holds. -/
theorem getHeadersLoop_le {σ : Type}
    (it : Option (σ → MHD_ValueKind → String → String → σ × Int))
    (l : List MHD_HTTP_Header) (cls : σ) (n : Nat) :
    (getHeadersLoop it l cls n).2 ≤ n + l.length := by
  induction l generalizing cls n with
  | nil => simp [getHeadersLoop]
  | cons p rest ih =>
      cases it with
      | none => rw [getHeadersLoop_none]
      | some f =>
          simp only [getHeadersLoop]
          by_cases hstop : (f cls p.kind p.header p.value).2 ≠ MHD_YES
          · rw [if_pos hstop]
            simp only [List.length_cons]
            omega
          · rw [if_neg hstop]
            calc (getHeadersLoop (some f) rest (f cls p.kind p.header p.value).1
                    (n + 1)).2 ≤ (n + 1) + rest.length := ih _ _
              _ = n + (p :: rest).length := by simp only [List.length_cons]; omega

/-- C10: `MHD_get_response_headers` with a NULL iterator invokes nothing and
returns the total header count; with an iterator it visits the entries in
list order, calling the iterator once per visited entry and stopping after
the first result other than MHD_YES, and returns the number of entries
visited, counting the one on which the iterator stopped (never more than the
list length). -/
theorem C10_get_response_headers_spec {σ : Type} (r : MHD_Response) (cls : σ)
    (f : σ → MHD_ValueKind → String → String → σ × Int) :
    MHD_get_response_headers r (none (α := σ → MHD_ValueKind → String → String → σ × Int)) cls =
      (cls, r.first_header.length) ∧
    (r.first_header = [] →
      MHD_get_response_headers r (some f) cls = (cls, 0)) ∧
    (∀ p rest, r.first_header = p :: rest →
      ((f cls p.kind p.header p.value).2 ≠ MHD_YES →
        MHD_get_response_headers r (some f) cls =
          ((f cls p.kind p.header p.value).1, 1)) ∧
      ((f cls p.kind p.header p.value).2 = MHD_YES →
        MHD_get_response_headers r (some f) cls =
          ((MHD_get_response_headers { r with first_header := rest } (some f)
              ((f cls p.kind p.header p.value).1)).1,
           (MHD_get_response_headers { r with first_header := rest } (some f)
              ((f cls p.kind p.header p.value).1)).2 + 1))) ∧
    (MHD_get_response_headers r (some f) cls).2 ≤ r.first_header.length := by
  refine ⟨?_, ?_, ?_, ?_⟩
  · rw [MHD_get_response_headers, getHeadersLoop_none]
    simp
  · intro h
    rw [MHD_get_response_headers, h]
    rfl
  · intro p rest hsplit
    constructor
    · intro hstop
      rw [MHD_get_response_headers, hsplit]
      simp only [getHeadersLoop]
      rw [if_pos hstop]
    · intro hyes
      have hr : MHD_get_response_headers { r with first_header := rest } (some f)
          ((f cls p.kind p.header p.value).1) =
          getHeadersLoop (some f) rest ((f cls p.kind p.header p.value).1) 0 := rfl
      rw [MHD_get_response_headers, hsplit]
      simp only [getHeadersLoop]
      rw [if_neg (by simp [hyes]),
        getHeadersLoop_acc (some f) rest ((f cls p.kind p.header p.value).1) (0 + 1),
        hr]
      exact congrArg _ (by omega)
  · have := getHeadersLoop_le (some f) r.first_header cls 0
    rw [MHD_get_response_headers]
    omega

/-- Two-entry response and iterators for the C10 witness. -/
def twoHdrResponse : MHD_Response :=
  { emptyResponse with first_header :=
      [{ header := "A", value := "1", kind := MHD_ValueKind.MHD_HEADER_KIND },
       { header := "B", value := "2", kind := MHD_ValueKind.MHD_HEADER_KIND }] }

/-- An iterator that counts its calls and always continues. -/
def countYesIterator (n : Nat) (_k : MHD_ValueKind) (_h _v : String) :
    Nat × Int := (n + 1, MHD_YES)

/-- An iterator that stops immediately (returns MHD_NO on its first call). -/
def stopIterator (n : Nat) (_k : MHD_ValueKind) (_h _v : String) :
    Nat × Int := (n + 1, MHD_NO)

/-- Witness for C10: on a two-entry list, the NULL iterator counts 2, the
stopping iterator is called once and the count is 1. -/
theorem C10_get_response_headers_spec_witness :
    MHD_get_response_headers twoHdrResponse
      (none (α := Nat → MHD_ValueKind → String → String → Nat × Int)) 0 = (0, 2) ∧
    MHD_get_response_headers twoHdrResponse (some stopIterator) 0 = (1, 1) ∧
    (MHD_get_response_headers twoHdrResponse (some countYesIterator) 0).2 ≤ 2 :=
  ⟨(C10_get_response_headers_spec twoHdrResponse 0 stopIterator).1,
   by
    have h := ((C10_get_response_headers_spec twoHdrResponse 0 stopIterator).2.2.1
      { header := "A", value := "1", kind := MHD_ValueKind.MHD_HEADER_KIND }
      [{ header := "B", value := "2", kind := MHD_ValueKind.MHD_HEADER_KIND }]
      rfl).1 (by decide)
    simpa using h,
   (C10_get_response_headers_spec twoHdrResponse 0 countYesIterator).2.2.2⟩

/-! ### C2 -/

/-- Repeated increments add up while the 32-bit counter does not wrap. -/
theorem increment_rc_iterate (k : Nat) (r : MHD_Response)
    (hlt : r.reference_count + k < UINT32_MOD) :
    (MHD_increment_response_rc^[k] r).reference_count =
      r.reference_count + k := by
  induction k generalizing r with
  | zero => rfl
  | succ n ih =>
      rw [Function.iterate_succ_apply]
      have h1 : (MHD_increment_response_rc r).reference_count =
          r.reference_count + 1 := by
        simp only [MHD_increment_response_rc]
        exact Nat.mod_eq_of_lt (by omega)
      rw [ih (MHD_increment_response_rc r) (by rw [h1]; omega), h1]
      omega

/-- C2: with reference count n ≥ 1, `MHD_destroy_response` decrements by one;
it frees the header list and the response object exactly when the new count
is zero and otherwise changes only `reference_count`;
`MHD_increment_response_rc` adds one, so a response created with count 1 and
incremented once per queueing against k connections has count k + 1 ≥ k, and
memory is released only at count zero. -/
theorem C2_response_reference_counting (r : MHD_Response)
    (h1 : 1 ≤ r.reference_count) (h2 : r.reference_count < UINT32_MOD) :
    (r.reference_count = 1 →
      MHD_destroy_response (some r) =
        { response := none, freed_headers := r.first_header,
          freed_response := true, crfc_called := false }) ∧
    (1 < r.reference_count →
      MHD_destroy_response (some r) =
        { response := some { r with reference_count := r.reference_count - 1 },
          freed_headers := [], freed_response := false, crfc_called := false }) ∧
    (r.reference_count + 1 < UINT32_MOD →
      MHD_increment_response_rc r =
        { r with reference_count := r.reference_count + 1 }) ∧
    (∀ k : Nat, r.reference_count + k < UINT32_MOD →
      k ≤ (MHD_increment_response_rc^[k] r).reference_count ∧
      (MHD_increment_response_rc^[k] r).reference_count =
        r.reference_count + k) := by
  have hdec : (r.reference_count + (UINT32_MOD - 1)) % UINT32_MOD =
      r.reference_count - 1 := by
    simp only [UINT32_MOD] at h2 ⊢
    omega
  refine ⟨?_, ?_, ?_, ?_⟩
  · intro hone
    simp only [MHD_destroy_response, hdec, hone]
    rfl
  · intro hgt
    simp only [MHD_destroy_response, hdec]
    rw [if_pos (by omega)]
  · intro hlt
    simp only [MHD_increment_response_rc]
    rw [Nat.mod_eq_of_lt hlt]
  · intro k hk
    refine ⟨?_, increment_rc_iterate k r hk⟩
    rw [increment_rc_iterate k r hk]
    omega

/-- Witness for C2 at a concrete response with reference count 2: destroy
yields count 1 without freeing, and three queueings from a fresh count of 1
give count 4 ≥ 3. -/
theorem C2_response_reference_counting_witness :
    MHD_destroy_response (some { emptyResponse with reference_count := 2 }) =
      { response := some emptyResponse, freed_headers := [],
        freed_response := false, crfc_called := false } ∧
    3 ≤ (MHD_increment_response_rc^[3] emptyResponse).reference_count := by
  constructor
  · have h := (C2_response_reference_counting
      { emptyResponse with reference_count := 2 } (by decide) (by decide)).2.1
      (by decide)
    simpa using h
  · exact ((C2_response_reference_counting emptyResponse (by decide)
      (by decide)).2.2.2 3 (by decide)).1

/-! ### C9 -/

/-- The caller-owned buffer handed to `MHD_create_response_from_data`. -/
def callerBuffer : Buffer := { id := 1, bytes := [42] }

/-- The response that `MHD_create_response_from_data (1, callerBuffer, 0, 1)`
builds when the copying `malloc` returns allocation 2: a private copy of the
bytes, with the free hook `&free` recorded against that copy. -/
def copiedDataResponse : MHD_Response :=
  { first_header := [], reference_count := 1, total_size := 1,
    data := some { id := 2, bytes := [42] }, data_size := 1,
    crc := false, crfc_is_free := true,
    crc_cls := some { id := 2, bytes := [42] } }

/-- C9, evaluated at the failing input: `must_copy` with size 1 makes a
private copy (allocation 2, distinct from the caller's allocation 1) and
records the free hook against it, the response has reference count 1, total
size 1, no content reader and no headers — but destroying the response (count
1 → 0) frees the headers and the object while never invoking the free hook,
so the copy is leaked rather than freed on destruction. -/
theorem C9_create_from_data_copy_not_freed :
    MHD_create_response_from_data 1 (some callerBuffer) false true 2 =
      some copiedDataResponse ∧
    MHD_create_response_from_data 1 none false false 2 = none ∧
    MHD_create_response_from_data 0 none false false 2 ≠ none ∧
    copiedDataResponse.crfc_is_free = true ∧
    copiedDataResponse.crc_cls = some { id := 2, bytes := [42] } ∧
    copiedDataResponse.data ≠ some callerBuffer ∧
    (MHD_destroy_response (some copiedDataResponse)).freed_response = true ∧
    (MHD_destroy_response (some copiedDataResponse)).crfc_called = false := by
  decide

/-! ### C3 -/

/-- Applying `MHD_add_response_header` to a (non-NULL) response; the result is
always a `some`, extracted with the original response as the default. -/
def addHeader1 (r : MHD_Response) (h v : String) : MHD_Response :=
  ((MHD_add_response_header (some r) (some h) (some v)).1).getD r

/-- A sequence of `MHD_add_response_header` calls, first pair first. -/
def addHeaders (r : MHD_Response) : List (String × String) → MHD_Response
  | [] => r
  | p :: rest => addHeaders (addHeader1 r p.1 p.2) rest

/-- An iterator whose `cls` collects the visited (name, value) pairs and that
always continues. -/
def collectIterator (acc : List (String × String)) (_k : MHD_ValueKind)
    (h v : String) : List (String × String) × Int :=
  (acc ++ [(h, v)], MHD_YES)

/-- The (name, value) pairs `MHD_get_response_headers` hands to its iterator,
in visiting order. -/
def collectHeaders (r : MHD_Response) : List (String × String) :=
  (MHD_get_response_headers r (some collectIterator) []).1

/-- A pair `MHD_add_response_header` accepts: both strings non-empty and free
of TAB, CR and LF. -/
def validHeaderPair (p : String × String) : Prop :=
  p.1.length ≠ 0 ∧ p.2.length ≠ 0 ∧
  forbiddenChars p.1 = false ∧ forbiddenChars p.2 = false

instance (p : String × String) : Decidable (validHeaderPair p) := by
  unfold validHeaderPair
  infer_instance

/-- The header entry a successful add builds from a pair. -/
def mkHdr (p : String × String) : MHD_HTTP_Header :=
  { header := p.1, value := p.2, kind := MHD_ValueKind.MHD_HEADER_KIND }

/-- A valid add prepends its entry. -/
theorem addHeader1_eq (r : MHD_Response) (h v : String)
    (hp : validHeaderPair (h, v)) :
    addHeader1 r h v = { r with first_header := mkHdr (h, v) :: r.first_header } := by
  obtain ⟨h1, h2, h3, h4⟩ := hp
  simp [addHeader1, MHD_add_response_header, mkHdr, h1, h2, h3, h4]

/-- A sequence of valid adds stores the entries in reverse order of addition
(response.c prepends to `first_header`). -/
theorem addHeaders_first_header (ps : List (String × String)) :
    ∀ r : MHD_Response, (∀ p ∈ ps, validHeaderPair p) →
      (addHeaders r ps).first_header =
        (ps.map mkHdr).reverse ++ r.first_header := by
  induction ps with
  | nil => intro r _; rfl
  | cons p rest ih =>
      intro r hvalid
      simp only [addHeaders, List.map_cons, List.reverse_cons]
      rw [addHeader1_eq r p.1 p.2 (by simpa using hvalid p (by simp)),
        ih _ fun q hq => hvalid q (by simp [hq])]
      simp

/-- The collecting iterator receives exactly the projections of the list. -/
theorem collect_getHeadersLoop (l : List MHD_HTTP_Header)
    (acc : List (String × String)) (n : Nat) :
    (getHeadersLoop (some collectIterator) l acc n).1 =
      acc ++ l.map (fun hd => (hd.header, hd.value)) := by
  induction l generalizing acc n with
  | nil => simp [getHeadersLoop]
  | cons p rest ih =>
      simp only [getHeadersLoop, collectIterator, List.map_cons]
      rw [if_neg (by simp [MHD_YES]), ih]
      simp

/-- C3 as amended: iterating with `MHD_get_response_headers` over a fresh
response after a sequence of successful adds visits exactly the added pairs,
each verbatim, in reverse insertion order: the most recently added header is
visited first. -/
theorem C3_headers_roundtrip_reverse (ps : List (String × String))
    (hvalid : ∀ p ∈ ps, validHeaderPair p) :
    collectHeaders (addHeaders emptyResponse ps) = ps.reverse := by
  rw [collectHeaders, MHD_get_response_headers, collect_getHeadersLoop,
    addHeaders_first_header ps emptyResponse hvalid]
  simp only [emptyResponse, List.append_nil, List.nil_append, List.map_reverse,
    List.map_map]
  have : ((fun hd : MHD_HTTP_Header => (hd.header, hd.value)) ∘ mkHdr) = id := by
    funext q
    simp [mkHdr]
  rw [this, List.map_id]

/-- C3 counterexample: adding ("A","1") then ("B","2") to a fresh response
(both adds succeed) makes iteration visit ("B","2") first — not insertion
order, contradicting the claim that the first header added is visited
first. -/
theorem C3_insertion_order_counterexample :
    (MHD_add_response_header (some emptyResponse) (some "A") (some "1")).2 =
      MHD_YES ∧
    (MHD_add_response_header (some (addHeader1 emptyResponse "A" "1"))
      (some "B") (some "2")).2 = MHD_YES ∧
    collectHeaders (addHeaders emptyResponse [("A", "1"), ("B", "2")]) =
      [("B", "2"), ("A", "1")] ∧
    collectHeaders (addHeaders emptyResponse [("A", "1"), ("B", "2")]) ≠
      [("A", "1"), ("B", "2")] := by
  refine ⟨rfl, rfl, rfl, by decide⟩

/-- Witness for C3 (amended): at the two concrete pairs the visit order is
the reverse of the insertion order. -/
theorem C3_headers_roundtrip_reverse_witness :
    collectHeaders (addHeaders emptyResponse [("A", "1"), ("B", "2")]) =
      [("B", "2"), ("A", "1")] := by
  have h := C3_headers_roundtrip_reverse [("A", "1"), ("B", "2")] (by decide)
  simpa using h

/-! ### C1 -/

/-- C1: in state `MHD_TLS_CONNECTION_INIT`, one read or write handler step
calls the handshake primitive; on `GNUTLS_E_SUCCESS` the state becomes
`MHD_CONNECTION_INIT` and the handler returns MHD_YES; on `GNUTLS_E_AGAIN` or
`GNUTLS_E_INTERRUPTED` the state stays `MHD_TLS_CONNECTION_INIT` and the
handler returns MHD_YES; on any other result the connection is closed with
termination code `MHD_REQUEST_TERMINATED_WITH_ERROR` and the handler returns
MHD_NO. -/
theorem C1_tls_handshake_step (now hs : Int) (c : MHD_Connection)
    (hstate : c.state = MHD_CONNECTION_STATE.MHD_TLS_CONNECTION_INIT) :
    (hs = GNUTLS_E_SUCCESS →
      MHD_tls_connection_handle_read now hs c =
        ({ { c with last_activity := now } with
            state := MHD_CONNECTION_STATE.MHD_CONNECTION_INIT }, MHD_YES) ∧
      MHD_tls_connection_handle_write now hs c =
        ({ { c with last_activity := now } with
            state := MHD_CONNECTION_STATE.MHD_CONNECTION_INIT }, MHD_YES)) ∧
    ((hs = GNUTLS_E_AGAIN ∨ hs = GNUTLS_E_INTERRUPTED) →
      MHD_tls_connection_handle_read now hs c =
        ({ c with last_activity := now }, MHD_YES) ∧
      (MHD_tls_connection_handle_read now hs c).1.state =
        MHD_CONNECTION_STATE.MHD_TLS_CONNECTION_INIT ∧
      MHD_tls_connection_handle_write now hs c =
        ({ c with last_activity := now }, MHD_YES) ∧
      (MHD_tls_connection_handle_write now hs c).1.state =
        MHD_CONNECTION_STATE.MHD_TLS_CONNECTION_INIT) ∧
    (hs ≠ GNUTLS_E_SUCCESS → hs ≠ GNUTLS_E_AGAIN → hs ≠ GNUTLS_E_INTERRUPTED →
      MHD_tls_connection_handle_read now hs c =
        (MHD_tls_connection_close { c with last_activity := now }
          MHD_RequestTerminationCode.MHD_REQUEST_TERMINATED_WITH_ERROR, MHD_NO) ∧
      (MHD_tls_connection_handle_read now hs c).1.state =
        MHD_CONNECTION_STATE.MHD_CONNECTION_CLOSED ∧
      (MHD_tls_connection_handle_read now hs c).1.term_calls = c.term_calls ++
        [MHD_RequestTerminationCode.MHD_REQUEST_TERMINATED_WITH_ERROR] ∧
      MHD_tls_connection_handle_write now hs c =
        (MHD_tls_connection_close { c with last_activity := now }
          MHD_RequestTerminationCode.MHD_REQUEST_TERMINATED_WITH_ERROR, MHD_NO) ∧
      (MHD_tls_connection_handle_write now hs c).1.state =
        MHD_CONNECTION_STATE.MHD_CONNECTION_CLOSED ∧
      (MHD_tls_connection_handle_write now hs c).1.term_calls = c.term_calls ++
        [MHD_RequestTerminationCode.MHD_REQUEST_TERMINATED_WITH_ERROR]) := by
  refine ⟨?_, ?_, ?_⟩
  · intro hsucc
    constructor <;>
      simp [MHD_tls_connection_handle_read, MHD_tls_connection_handle_write,
        hstate, hsucc]
  · intro hagain
    have hns : hs ≠ GNUTLS_E_SUCCESS := by
      rcases hagain with h | h <;> rw [h] <;> decide
    refine ⟨?_, ?_, ?_, ?_⟩ <;>
      simp [MHD_tls_connection_handle_read, MHD_tls_connection_handle_write,
        hstate, hns, hagain]
  · intro h1 h2 h3
    refine ⟨?_, ?_, ?_, ?_, ?_, ?_⟩ <;>
      simp [MHD_tls_connection_handle_read, MHD_tls_connection_handle_write,
        MHD_tls_connection_close, MHD_connection_close, hstate, h1, h2, h3]

/-- A connection mid-handshake, for the C1 and C4 witnesses. -/
def handshakeConn : MHD_Connection :=
  { state := MHD_CONNECTION_STATE.MHD_TLS_CONNECTION_INIT, socket_fd := 7,
    last_activity := 0, connection_timeout := 10, tls_bye_count := 0,
    term_calls := [] }

/-- Witness for C1 at the concrete connection: success enters the HTTP state
machine, EAGAIN stays, and a fatal result (-10) closes with-error. -/
theorem C1_tls_handshake_step_witness :
    (MHD_tls_connection_handle_read 3 GNUTLS_E_SUCCESS handshakeConn).1.state =
      MHD_CONNECTION_STATE.MHD_CONNECTION_INIT ∧
    (MHD_tls_connection_handle_write 3 GNUTLS_E_AGAIN handshakeConn).1.state =
      MHD_CONNECTION_STATE.MHD_TLS_CONNECTION_INIT ∧
    (MHD_tls_connection_handle_read 3 (-10) handshakeConn).1.term_calls =
      [MHD_RequestTerminationCode.MHD_REQUEST_TERMINATED_WITH_ERROR] :=
  ⟨by rw [((C1_tls_handshake_step 3 GNUTLS_E_SUCCESS handshakeConn rfl).1 rfl).1],
   ((C1_tls_handshake_step 3 GNUTLS_E_AGAIN handshakeConn rfl).2.1
      (Or.inl rfl)).2.2.2,
   by
    have h := ((C1_tls_handshake_step 3 (-10) handshakeConn rfl).2.2
      (by decide) (by decide) (by decide)).2.2.1
    simpa using h⟩

/-! ### C4 -/

/-- A connection whose daemon has `connection_timeout = 0`. -/
def timeoutZeroConn : MHD_Connection :=
  { state := MHD_CONNECTION_STATE.MHD_TLS_CONNECTION_INIT, socket_fd := 5,
    last_activity := 0, connection_timeout := 0, tls_bye_count := 0,
    term_calls := [] }

/-- C4 counterexample: with configured timeout 0, an open socket and
`now - last_activity = 10 > 0 = timeout`, the idle step neither force-closes
the connection nor returns MHD_NO — the timeout check in
`MHD_tls_connection_handle_idle` additionally requires `timeout != 0`. -/
theorem C4_timeout_zero_counterexample :
    timeoutZeroConn.socket_fd ≠ -1 ∧
    (10 : Int) - timeoutZeroConn.last_activity >
      (timeoutZeroConn.connection_timeout : Int) ∧
    (MHD_tls_connection_handle_idle 10 timeoutZeroConn).2 = MHD_YES ∧
    (MHD_tls_connection_handle_idle 10 timeoutZeroConn).1.term_calls = [] := by
  decide

/-- C4 as amended: for a connection with an open socket and a nonzero
configured timeout, if `now - last_activity > timeout` the idle step
force-closes the connection with termination code timeout and returns MHD_NO;
if `now - last_activity ≤ timeout` — or the timeout is 0, which disables the
check — the idle step records no timeout termination. -/
theorem C4_idle_timeout (now : Int) (c : MHD_Connection)
    (hsock : c.socket_fd ≠ -1) :
    (c.connection_timeout ≠ 0 →
      now - c.last_activity > (c.connection_timeout : Int) →
      MHD_tls_connection_handle_idle now c =
        (MHD_tls_connection_close c
          MHD_RequestTerminationCode.MHD_REQUEST_TERMINATED_TIMEOUT_REACHED,
         MHD_NO) ∧
      (MHD_tls_connection_handle_idle now c).1.state =
        MHD_CONNECTION_STATE.MHD_CONNECTION_CLOSED ∧
      (MHD_tls_connection_handle_idle now c).1.socket_fd = -1 ∧
      (MHD_tls_connection_handle_idle now c).1.term_calls = c.term_calls ++
        [MHD_RequestTerminationCode.MHD_REQUEST_TERMINATED_TIMEOUT_REACHED]) ∧
    ((c.connection_timeout = 0 ∨
        now - c.last_activity ≤ (c.connection_timeout : Int)) →
      List.count
          MHD_RequestTerminationCode.MHD_REQUEST_TERMINATED_TIMEOUT_REACHED
          (MHD_tls_connection_handle_idle now c).1.term_calls =
        List.count
          MHD_RequestTerminationCode.MHD_REQUEST_TERMINATED_TIMEOUT_REACHED
          c.term_calls) := by
  constructor
  · intro ht hlate
    have hcond : c.socket_fd ≠ -1 ∧ c.connection_timeout ≠ 0 ∧
        now - (c.connection_timeout : Int) > c.last_activity :=
      ⟨hsock, ht, by omega⟩
    rw [MHD_tls_connection_handle_idle]
    rw [if_pos hcond]
    refine ⟨rfl, ?_, ?_, ?_⟩ <;>
      simp [MHD_tls_connection_close, MHD_connection_close, if_pos hcond]
  · intro hno
    have hcond : ¬(c.socket_fd ≠ -1 ∧ c.connection_timeout ≠ 0 ∧
        now - (c.connection_timeout : Int) > c.last_activity) := by
      rcases hno with h0 | hle
      · rintro ⟨-, hz, -⟩; exact hz h0
      · rintro ⟨-, -, hgt⟩; omega
    rw [MHD_tls_connection_handle_idle]
    rw [if_neg hcond]
    rcases hcs : c.state <;>
      simp [hcs, MHD_connection_handle_idle, MHD_tls_connection_close,
        MHD_connection_close, List.count_append, apply_ite]

/-- Witness for C4: `handshakeConn` (timeout 10, last activity 0) is closed
for timeout at now = 20, and records no timeout termination at now = 5. -/
theorem C4_idle_timeout_witness :
    (MHD_tls_connection_handle_idle 20 handshakeConn).1.term_calls =
      [MHD_RequestTerminationCode.MHD_REQUEST_TERMINATED_TIMEOUT_REACHED] ∧
    List.count MHD_RequestTerminationCode.MHD_REQUEST_TERMINATED_TIMEOUT_REACHED
      (MHD_tls_connection_handle_idle 5 handshakeConn).1.term_calls = 0 :=
  ⟨by
    have h := ((C4_idle_timeout 20 handshakeConn (by decide)).1 (by decide)
      (by decide)).2.2.2
    simpa using h,
   by
    have h := (C4_idle_timeout 5 handshakeConn (by decide)).2
      (Or.inr (by decide))
    simpa using h⟩

/-! ### C5 -/

/-- A handler step on a CLOSED connection whose socket already carries the
sentinel changes neither the state, the sentinel, nor the recorded
termination calls. -/
theorem tlsStep_closed_sentinel (c : MHD_Connection) (ev : TlsEvent)
    (hstate : c.state = MHD_CONNECTION_STATE.MHD_CONNECTION_CLOSED)
    (hsock : c.socket_fd = -1) :
    (tlsStep c ev).state = MHD_CONNECTION_STATE.MHD_CONNECTION_CLOSED ∧
    (tlsStep c ev).socket_fd = -1 ∧
    (tlsStep c ev).term_calls = c.term_calls := by
  cases ev with
  | read now hs =>
      simp [tlsStep, MHD_tls_connection_handle_read, hstate,
        MHD_connection_handle_read, hsock]
  | write now hs =>
      simp [tlsStep, MHD_tls_connection_handle_write, hstate,
        MHD_connection_handle_write, hsock]
  | idle now =>
      simp [tlsStep, MHD_tls_connection_handle_idle, hstate, hsock]

/-- A run from a CLOSED connection with the sentinel socket never records a
termination call. -/
theorem tlsRun_closed_sentinel (evs : List TlsEvent) :
    ∀ c : MHD_Connection,
      c.state = MHD_CONNECTION_STATE.MHD_CONNECTION_CLOSED →
      c.socket_fd = -1 →
      (tlsRun c evs).state = MHD_CONNECTION_STATE.MHD_CONNECTION_CLOSED ∧
      (tlsRun c evs).socket_fd = -1 ∧
      (tlsRun c evs).term_calls = c.term_calls := by
  induction evs with
  | nil => exact fun c h1 h2 => ⟨h1, h2, rfl⟩
  | cons ev evs ih =>
      intro c h1 h2
      obtain ⟨s1, s2, s3⟩ := tlsStep_closed_sentinel c ev h1 h2
      obtain ⟨r1, r2, r3⟩ := ih (tlsStep c ev) s1 s2
      exact ⟨r1, r2, by rw [tlsRun, r3, s3]⟩

/-- A read or write step on a CLOSED connection with an open socket reaches
the plain handler and neither closes the socket nor records a termination. -/
theorem tlsStep_closed_open_rw (c : MHD_Connection) (now hs : Int)
    (hstate : c.state = MHD_CONNECTION_STATE.MHD_CONNECTION_CLOSED) :
    (tlsStep c (TlsEvent.read now hs)).state =
        MHD_CONNECTION_STATE.MHD_CONNECTION_CLOSED ∧
    (tlsStep c (TlsEvent.read now hs)).socket_fd = c.socket_fd ∧
    (tlsStep c (TlsEvent.read now hs)).term_calls = c.term_calls ∧
    (tlsStep c (TlsEvent.write now hs)).state =
        MHD_CONNECTION_STATE.MHD_CONNECTION_CLOSED ∧
    (tlsStep c (TlsEvent.write now hs)).socket_fd = c.socket_fd ∧
    (tlsStep c (TlsEvent.write now hs)).term_calls = c.term_calls := by
  refine ⟨?_, ?_, ?_, ?_, ?_, ?_⟩ <;>
    simp [tlsStep, MHD_tls_connection_handle_read,
      MHD_tls_connection_handle_write, hstate, MHD_connection_handle_read,
      MHD_connection_handle_write]

/-- An idle step on a CLOSED connection with an open socket runs the close
routine exactly once: it records one termination call and replaces the socket
by the sentinel. -/
theorem tlsStep_closed_open_idle (c : MHD_Connection) (now : Int)
    (hstate : c.state = MHD_CONNECTION_STATE.MHD_CONNECTION_CLOSED)
    (hsock : c.socket_fd ≠ -1) :
    ∃ code, tlsStep c (TlsEvent.idle now) = MHD_tls_connection_close c code := by
  rcases em (c.socket_fd ≠ -1 ∧ c.connection_timeout ≠ 0 ∧
      now - (c.connection_timeout : Int) > c.last_activity) with hcond | hcond
  · refine ⟨MHD_RequestTerminationCode.MHD_REQUEST_TERMINATED_TIMEOUT_REACHED, ?_⟩
    simp only [tlsStep, MHD_tls_connection_handle_idle]
    rw [if_pos hcond]
  · refine ⟨MHD_RequestTerminationCode.MHD_REQUEST_TERMINATED_COMPLETED_OK, ?_⟩
    simp only [tlsStep, MHD_tls_connection_handle_idle]
    rw [if_neg hcond]
    simp [hstate, hsock]

/-- The close routine appends exactly one termination call, installs the
sentinel and keeps the state CLOSED-bound. -/
theorem tls_connection_close_effect (c : MHD_Connection)
    (code : MHD_RequestTerminationCode) :
    (MHD_tls_connection_close c code).state =
        MHD_CONNECTION_STATE.MHD_CONNECTION_CLOSED ∧
    (MHD_tls_connection_close c code).socket_fd = -1 ∧
    (MHD_tls_connection_close c code).term_calls = c.term_calls ++ [code] := by
  simp [MHD_tls_connection_close, MHD_connection_close]

/-- C5: once a connection is in the CLOSED state, any sequence of read, write
and idle handler steps runs the close routine at most once — the number of
recorded termination-callback invocations grows by at most one; it grows by
zero when the socket already carries the sentinel -1 (the guard), and by
exactly one when the socket is still open and the sequence contains an idle
step. -/
theorem C5_closed_close_runs_once (c : MHD_Connection) (evs : List TlsEvent)
    (hstate : c.state = MHD_CONNECTION_STATE.MHD_CONNECTION_CLOSED) :
    (tlsRun c evs).term_calls.length ≤ c.term_calls.length + 1 ∧
    (c.socket_fd = -1 → (tlsRun c evs).term_calls = c.term_calls) ∧
    (c.socket_fd ≠ -1 → (∃ now, TlsEvent.idle now ∈ evs) →
      (tlsRun c evs).term_calls.length = c.term_calls.length + 1) := by
  induction evs generalizing c with
  | nil =>
      refine ⟨Nat.le_succ _, fun _ => rfl, fun _ hmem => ?_⟩
      obtain ⟨now, hmem⟩ := hmem
      simp at hmem
  | cons ev evs ih =>
      by_cases hsock : c.socket_fd = -1
      · obtain ⟨r1, r2, r3⟩ := tlsRun_closed_sentinel (ev :: evs) c hstate hsock
        exact ⟨by rw [r3]; omega, fun _ => r3, fun hne _ => absurd hsock hne⟩
      · cases ev with
        | read now hs =>
            obtain ⟨s1, s2, s3, -, -, -⟩ := tlsStep_closed_open_rw c now hs hstate
            obtain ⟨r1, r2, r3⟩ := ih (tlsStep c (TlsEvent.read now hs)) s1
            have hunf : tlsRun c (TlsEvent.read now hs :: evs) =
                tlsRun (tlsStep c (TlsEvent.read now hs)) evs := rfl
            refine ⟨?_, fun h => absurd h hsock, fun _ hmem => ?_⟩
            · rw [hunf]
              rw [s3] at r1
              exact r1
            · obtain ⟨now2, hmem⟩ := hmem
              rcases List.mem_cons.mp hmem with h | h
              · cases h
              · have := r3 (by rw [s2]; exact hsock) ⟨now2, h⟩
                rw [hunf]
                rw [s3] at this
                exact this
        | write now hs =>
            obtain ⟨-, -, -, s1, s2, s3⟩ := tlsStep_closed_open_rw c now hs hstate
            obtain ⟨r1, r2, r3⟩ := ih (tlsStep c (TlsEvent.write now hs)) s1
            have hunf : tlsRun c (TlsEvent.write now hs :: evs) =
                tlsRun (tlsStep c (TlsEvent.write now hs)) evs := rfl
            refine ⟨?_, fun h => absurd h hsock, fun _ hmem => ?_⟩
            · rw [hunf]
              rw [s3] at r1
              exact r1
            · obtain ⟨now2, hmem⟩ := hmem
              rcases List.mem_cons.mp hmem with h | h
              · cases h
              · have := r3 (by rw [s2]; exact hsock) ⟨now2, h⟩
                rw [hunf]
                rw [s3] at this
                exact this
        | idle now =>
            obtain ⟨code, hstep⟩ := tlsStep_closed_open_idle c now hstate hsock
            obtain ⟨e1, e2, e3⟩ := tls_connection_close_effect c code
            have hrun := tlsRun_closed_sentinel evs
              (tlsStep c (TlsEvent.idle now)) (by rw [hstep]; exact e1)
              (by rw [hstep]; exact e2)
            obtain ⟨-, -, r3⟩ := hrun
            have hunf : tlsRun c (TlsEvent.idle now :: evs) =
                tlsRun (tlsStep c (TlsEvent.idle now)) evs := rfl
            have hlen : (tlsRun c (TlsEvent.idle now :: evs)).term_calls =
                c.term_calls ++ [code] := by
              rw [hunf, r3, hstep, e3]
            refine ⟨?_, fun h => absurd h hsock, fun _ _ => ?_⟩ <;>
              rw [hlen] <;> simp

/-- A connection that has just entered CLOSED with its socket still open. -/
def freshlyClosedConn : MHD_Connection :=
  { state := MHD_CONNECTION_STATE.MHD_CONNECTION_CLOSED, socket_fd := 9,
    last_activity := 0, connection_timeout := 0, tls_bye_count := 0,
    term_calls := [] }

/-- Witness for C5: over a concrete step sequence containing two idle steps
interleaved with reads and writes, the termination callback is recorded
exactly once. -/
theorem C5_closed_close_runs_once_witness :
    freshlyClosedConn.state = MHD_CONNECTION_STATE.MHD_CONNECTION_CLOSED ∧
    (tlsRun freshlyClosedConn
        [TlsEvent.read 1 0, TlsEvent.idle 2, TlsEvent.write 3 0,
         TlsEvent.idle 4]).term_calls.length = 1 ∧
    (tlsRun freshlyClosedConn
        [TlsEvent.read 1 0, TlsEvent.idle 2, TlsEvent.write 3 0,
         TlsEvent.idle 4]).term_calls.length ≤ 1 :=
  ⟨rfl,
   by
    have h := (C5_closed_close_runs_once freshlyClosedConn
      [TlsEvent.read 1 0, TlsEvent.idle 2, TlsEvent.write 3 0, TlsEvent.idle 4]
      rfl).2.2 (by decide) ⟨2, by decide⟩
    simpa using h,
   by
    have h := (C5_closed_close_runs_once freshlyClosedConn
      [TlsEvent.read 1 0, TlsEvent.idle 2, TlsEvent.write 3 0, TlsEvent.idle 4]
      rfl).1
    simpa using h⟩
